import Mathlib

/-!
Verification of `generate_icon.py` from the VeloxClip repository.

The script is embedded shallowly: the builder `generate_icon` and the CLI
entry point `main_entry` are pure Lean functions that, given an abstract
environment answering the two external utilities (`sips`, `iconutil`) and
an initial filesystem state, return the sequence of observable events
(directory creation/removal, console prints, utility invocations) together
with the boolean/exit-code result.  Filesystem effects of a trace are
interpreted by `applyTrace`.
-/

/-- Result of a `subprocess.run` call: exit status and captured stderr. -/
structure ProcResult where
  returncode : Int
  stderr : String
deriving DecidableEq

/-- Observable events of a run, in program order.  `runSips idx size inp out r`
records the `idx`-th invocation of the scaling utility and its result `r`;
`runIconutil` likewise records the single compile invocation. -/
inductive Event where
  | mkdirParents (path : String)
  | rmtree (path : String)
  | makedirs (path : String)
  | print (msg : String)
  | runSips (idx : Nat) (size : Nat) (input : String) (outFile : String) (r : ProcResult)
  | runIconutil (iconset : String) (outPath : String) (r : ProcResult)
deriving DecidableEq

/-- Abstract filesystem state: which directories and which files exist. -/
structure FSState where
  dirExists : String → Bool
  fileExists : String → Bool

/-- Environment answering the external utilities.  `sips` is keyed by the
invocation index as well as its command-line arguments, so distinct calls
may answer differently. -/
structure Env where
  sips : Nat → Nat → String → String → ProcResult
  iconutil : String → String → ProcResult

/-- `os.path.exists`: true for a file or a directory. -/
def pathExists (fs : FSState) (p : String) : Bool :=
  fs.fileExists p || fs.dirExists p

/-- `q` is an ancestor of `p` or `p` itself (at a path-component boundary). -/
def isAncestorOrSelf (q p : String) : Bool :=
  decide (q = p) || List.isPrefixOf (q.data ++ ['/']) p.data

/-- `q` lies inside the tree rooted at `p` (or is `p` itself); this is the
set of paths destroyed by `shutil.rmtree p`. -/
def pathWithin (p q : String) : Bool :=
  decide (q = p) || List.isPrefixOf (p.data ++ ['/']) q.data

/-- Which path, if any, an event writes a file to (successful utility calls
write their output file; everything else writes no file). -/
def writeTarget : Event → Option String
  | .runSips _ _ _ outFile r => if r.returncode = 0 then some outFile else none
  | .runIconutil _ outPath r => if r.returncode = 0 then some outPath else none
  | _ => none

/-- Interpret one event on the filesystem.  `mkdir -p`/`os.makedirs` create
the directory and its ancestors; `rmtree` destroys the directory and
everything beneath it; a utility call that succeeds writes its output file. -/
def applyEvent (fs : FSState) : Event → FSState
  | .mkdirParents p =>
    { fs with dirExists := fun q => fs.dirExists q || isAncestorOrSelf q p }
  | .rmtree p =>
    { dirExists := fun q => if pathWithin p q then false else fs.dirExists q,
      fileExists := fun q => if pathWithin p q then false else fs.fileExists q }
  | .makedirs p =>
    { fs with dirExists := fun q => fs.dirExists q || isAncestorOrSelf q p }
  | .print _ => fs
  | .runSips _ _ _ outFile r =>
    if r.returncode = 0 then
      { fs with fileExists := fun q => if q = outFile then true else fs.fileExists q }
    else fs
  | .runIconutil _ outPath r =>
    if r.returncode = 0 then
      { fs with fileExists := fun q => if q = outPath then true else fs.fileExists q }
    else fs

def applyTrace (fs : FSState) : List Event → FSState
  | [] => fs
  | e :: es => applyTrace (applyEvent fs e) es

/-- Split a character list on `/` (helper for `parentDir`). -/
def splitOnSlash : List Char → List (List Char)
  | [] => [[]]
  | c :: rest =>
    let r := splitOnSlash rest
    if c = '/' then [] :: r
    else
      match r with
      | [] => [[c]]
      | g :: gs => (c :: g) :: gs

/-- Join path components with `/` (helper for `parentDir`). -/
def joinComps : List (List Char) → List Char
  | [] => []
  | [g] => g
  | g :: gs => g ++ '/' :: joinComps gs

/-- `pathlib.Path(p).parent`: all components but the last, `"."` when the
path has a single component. -/
def parentDir (p : String) : String :=
  match (splitOnSlash p.data).dropLast with
  | [] => "."
  | cs => String.mk (joinComps cs)

/-- `os.path.join a b`. -/
def joinPath (a b : String) : String := a ++ "/" ++ b

/-- The fixed name of the transient working directory (`iconset_name`). -/
def iconset_name : String := "VeloxClip.iconset"

/-- The fixed output path used by the CLI entry point. -/
def output_icns_default : String := "VeloxClip/Resources/AppIcon.icns"

/-- The fixed ordered table of required renditions, verbatim from the script. -/
def icon_sizes : List (Nat × String) :=
  [ (16, "icon_16x16.png"),
    (32, "icon_16x16@2x.png"),
    (32, "icon_32x32.png"),
    (64, "icon_32x32@2x.png"),
    (128, "icon_128x128.png"),
    (256, "icon_128x128@2x.png"),
    (256, "icon_256x256.png"),
    (512, "icon_256x256@2x.png"),
    (512, "icon_512x512.png"),
    (1024, "icon_512x512@2x.png") ]

/-- The `for size, filename in icon_sizes` loop: invoke `sips` for each entry
in order; on the first non-zero exit status print the error, remove the
working directory and stop with `False`.  `idx` numbers the invocations. -/
def renderLoop (env : Env) (input_image : String) : Nat → List (Nat × String) → List Event × Bool
  | _, [] => ([], true)
  | idx, (size, filename) :: rest =>
    let output_file := joinPath iconset_name filename
    let r := env.sips idx size input_image output_file
    if r.returncode ≠ 0 then
      ([Event.runSips idx size input_image output_file r,
        Event.print ("❌ Failed to generate " ++ filename ++ ": " ++ r.stderr),
        Event.rmtree iconset_name], false)
    else
      let rec_result := renderLoop env input_image (idx + 1) rest
      (Event.runSips idx size input_image output_file r :: rec_result.1, rec_result.2)

/-- The builder `generate_icon(input_image, output_icns)`: create the output
parent directory, recreate the working directory (removing a pre-existing
one first), render all sizes, compile with `iconutil`, clean up, report. -/
def generate_icon (fs0 : FSState) (env : Env) (input_image output_icns : String) :
    List Event × Bool :=
  let ev0 := Event.mkdirParents (parentDir output_icns)
  let preRemove : List Event :=
    if pathExists (applyEvent fs0 ev0) iconset_name then [Event.rmtree iconset_name] else []
  let header : List Event :=
    [Event.makedirs iconset_name,
     Event.print "🎨 Generating app icon...",
     Event.print ("📥 Input image: " ++ input_image),
     Event.print "📐 Generating icon sizes..."]
  let lr := renderLoop env input_image 0 icon_sizes
  if lr.2 = false then
    (ev0 :: (preRemove ++ header ++ lr.1), false)
  else
    let r := env.iconutil iconset_name output_icns
    if r.returncode ≠ 0 then
      (ev0 :: (preRemove ++ header ++ lr.1 ++
        [Event.print "✅ Generated all icon sizes",
         Event.print "🔨 Generating .icns file...",
         Event.runIconutil iconset_name output_icns r,
         Event.rmtree iconset_name,
         Event.print ("❌ Icon generation failed: " ++ r.stderr)]), false)
    else
      (ev0 :: (preRemove ++ header ++ lr.1 ++
        [Event.print "✅ Generated all icon sizes",
         Event.print "🔨 Generating .icns file...",
         Event.runIconutil iconset_name output_icns r,
         Event.rmtree iconset_name,
         Event.print "✅ Icon generated successfully!",
         Event.print ("📦 Output file: " ++ output_icns)]), true)

/-- The `__main__` block: usage check, input-existence check, then the build;
returns the printed/filesystem events together with the process exit code. -/
def main_entry (fs0 : FSState) (env : Env) (argv : List String) : List Event × Nat :=
  if argv.length < 2 then
    ([Event.print "Usage: python3 generate_icon.py <image_path>",
      Event.print "Example: python3 generate_icon.py icon.png"], 1)
  else
    let input_image := argv.getD 1 ""
    if pathExists fs0 input_image = false then
      ([Event.print ("❌ Error: File not found \x27" ++ input_image ++ "\x27")], 1)
    else
      let g := generate_icon fs0 env input_image output_icns_default
      if g.2 then
        (g.1 ++
          [Event.print "\n💡 Tip: Icon has been generated, you can now run build_app.sh to build the app"], 0)
      else
        (g.1, 1)

/-- The entry of the size table consulted at position `j` of the loop. -/
def specAt (l : List (Nat × String)) (j : Nat) : Nat × String := l.getD j (0, "")

/-- The output file the `j`-th loop iteration hands to the scaling utility. -/
def sipsArgsOut (l : List (Nat × String)) (j : Nat) : String :=
  joinPath iconset_name (specAt l j).2

/-- The event recorded for the `j`-th scaling invocation (numbering from `idx`). -/
def sipsCallEv (env : Env) (inp : String) (l : List (Nat × String)) (idx j : Nat) : Event :=
  Event.runSips (idx + j) (specAt l j).1 inp (sipsArgsOut l j)
    (env.sips (idx + j) (specAt l j).1 inp (sipsArgsOut l j))

/-- The exit status the environment answers for the `j`-th scaling invocation. -/
def callCode (env : Env) (inp : String) (l : List (Nat × String)) (idx j : Nat) : Int :=
  (env.sips (idx + j) (specAt l j).1 inp (sipsArgsOut l j)).returncode

/-- Exit status of the `k`-th of the ten scaling invocations of a run. -/
def sipsCode (env : Env) (inp : String) (k : Nat) : Int :=
  callCode env inp icon_sizes 0 k

/-- Exit status of the single compile invocation of a run. -/
def compileCode (env : Env) (out : String) : Int :=
  (env.iconutil iconset_name out).returncode

-- Concrete states/environments used by witnesses and counterexamples.

/-- Empty filesystem. -/
def fsEmpty : FSState := { dirExists := fun _ => false, fileExists := fun _ => false }

/-- Filesystem holding exactly the input file `in.png`. -/
def fsWithInput : FSState :=
  { dirExists := fun _ => false, fileExists := fun q => decide (q = "in.png") }

/-- A successful utility result. -/
def procOk : ProcResult := { returncode := 0, stderr := "" }

/-- Environment in which every utility call succeeds. -/
def envAllOk : Env :=
  { sips := fun _ _ _ _ => procOk, iconutil := fun _ _ => procOk }

/-- Environment in which the `m`-th scaling call fails and all else succeeds. -/
def envFailAt (m : Nat) : Env :=
  { sips := fun idx _ _ _ => if idx = m then { returncode := 1, stderr := "boom" } else procOk,
    iconutil := fun _ _ => procOk }

/-- Environment in which every scaling call succeeds and the compile fails. -/
def envCompileFail : Env :=
  { sips := fun _ _ _ _ => procOk,
    iconutil := fun _ _ => { returncode := 2, stderr := "bad" } }

-- Structural lemmas about the trace interpreter.

lemma applyTrace_append (fs : FSState) (a b : List Event) :
    applyTrace fs (a ++ b) = applyTrace (applyTrace fs a) b := by
  induction a generalizing fs with
  | nil => rfl
  | cons e es ih => simp [applyTrace, ih]

lemma pathWithin_self (p : String) : pathWithin p p = true := by
  simp [pathWithin]

lemma isAncestorOrSelf_self (p : String) : isAncestorOrSelf p p = true := by
  simp [isAncestorOrSelf]

lemma pathWithin_joinPath (f : String) :
    pathWithin iconset_name (joinPath iconset_name f) = true := by
  have h : (joinPath iconset_name f).data =
      (iconset_name.data ++ ['/']) ++ f.data := by
    simp [joinPath, String.data_append, iconset_name]
  simp [pathWithin, h, List.isPrefixOf_iff_prefix]

lemma applyTrace_prints (fs : FSState) :
    ∀ evs : List Event, (∀ e ∈ evs, ∃ m, e = Event.print m) → applyTrace fs evs = fs := by
  intro evs
  induction evs with
  | nil => intro _; rfl
  | cons e es ih =>
    intro h
    obtain ⟨m, hm⟩ := h e (List.mem_cons_self _ _)
    subst hm
    simpa [applyTrace, applyEvent] using ih (fun e he => h e (List.mem_cons_of_mem _ he))

lemma dirExists_final_rmtree (fs : FSState) (a post : List Event)
    (hpost : ∀ e ∈ post, ∃ m, e = Event.print m) :
    (applyTrace fs (a ++ Event.rmtree iconset_name :: post)).dirExists iconset_name = false := by
  rw [applyTrace_append]
  simp only [applyTrace]
  rw [applyTrace_prints _ post hpost]
  simp [applyEvent, pathWithin_self]

lemma applyEvent_dir_true (fs : FSState) (e : Event) (q : String)
    (hd : fs.dirExists q = true)
    (hr : ∀ p, e = Event.rmtree p → pathWithin p q = false) :
    (applyEvent fs e).dirExists q = true := by
  cases e with
  | mkdirParents p => simp [applyEvent, hd]
  | rmtree p => simp [applyEvent, hr p rfl, hd]
  | makedirs p => simp [applyEvent, hd]
  | print m => simpa [applyEvent] using hd
  | runSips i s a o r =>
    by_cases h : r.returncode = 0 <;> simp [applyEvent, h, hd]
  | runIconutil a o r =>
    by_cases h : r.returncode = 0 <;> simp [applyEvent, h, hd]

lemma applyTrace_dir_true (q : String) :
    ∀ (evs : List Event) (fs : FSState),
      fs.dirExists q = true →
      (∀ p, Event.rmtree p ∈ evs → pathWithin p q = false) →
      (applyTrace fs evs).dirExists q = true := by
  intro evs
  induction evs with
  | nil => intro fs hd _; exact hd
  | cons e es ih =>
    intro fs hd hr
    simp only [applyTrace]
    refine ih _ (applyEvent_dir_true fs e q hd ?_) ?_
    · intro p hp; exact hr p (by rw [hp]; exact List.mem_cons_self _ _)
    · intro p hp; exact hr p (List.mem_cons_of_mem _ hp)

lemma applyEvent_file_eq (fs : FSState) (e : Event) (q : String)
    (hr : ∀ p, e = Event.rmtree p → pathWithin p q = false)
    (hw : ∀ o, writeTarget e = some o → o ≠ q) :
    (applyEvent fs e).fileExists q = fs.fileExists q := by
  cases e with
  | mkdirParents p => rfl
  | rmtree p => simp [applyEvent, hr p rfl]
  | makedirs p => rfl
  | print m => rfl
  | runSips i s a o r =>
    by_cases h : r.returncode = 0
    · have ho : o ≠ q := hw o (by simp [writeTarget, h])
      simp only [applyEvent, if_pos h]
      exact if_neg (fun hq => ho hq.symm)
    · simp [applyEvent, h]
  | runIconutil a o r =>
    by_cases h : r.returncode = 0
    · have ho : o ≠ q := hw o (by simp [writeTarget, h])
      simp only [applyEvent, if_pos h]
      exact if_neg (fun hq => ho hq.symm)
    · simp [applyEvent, h]

lemma applyTrace_file_eq (q : String) :
    ∀ (evs : List Event) (fs : FSState),
      (∀ p, Event.rmtree p ∈ evs → pathWithin p q = false) →
      (∀ e ∈ evs, ∀ o, writeTarget e = some o → o ≠ q) →
      (applyTrace fs evs).fileExists q = fs.fileExists q := by
  intro evs
  induction evs with
  | nil => intro fs _ _; rfl
  | cons e es ih =>
    intro fs hr hw
    simp only [applyTrace]
    rw [ih _ (fun p hp => hr p (List.mem_cons_of_mem _ hp))
          (fun e he => hw e (List.mem_cons_of_mem _ he))]
    exact applyEvent_file_eq fs e q
      (fun p hp => hr p (by rw [hp]; exact List.mem_cons_self _ _))
      (hw e (List.mem_cons_self _ _))

-- Structural lemmas about the rendering loop.

lemma specAt_cons_succ (a : Nat × String) (t : List (Nat × String)) (j : Nat) :
    specAt (a :: t) (j + 1) = specAt t j := rfl

lemma sipsArgsOut_cons_succ (a : Nat × String) (t : List (Nat × String)) (j : Nat) :
    sipsArgsOut (a :: t) (j + 1) = sipsArgsOut t j := rfl

lemma callCode_cons_succ (env : Env) (inp : String) (a : Nat × String)
    (t : List (Nat × String)) (idx j : Nat) :
    callCode env inp (a :: t) idx (j + 1) = callCode env inp t (idx + 1) j := by
  unfold callCode
  rw [specAt_cons_succ, sipsArgsOut_cons_succ, show idx + (j + 1) = (idx + 1) + j by omega]

lemma callCode_cons_zero (env : Env) (inp : String) (a : Nat × String)
    (t : List (Nat × String)) (idx : Nat) :
    callCode env inp (a :: t) idx 0 =
      (env.sips idx a.1 inp (joinPath iconset_name a.2)).returncode := by
  simp [callCode, specAt, sipsArgsOut]

lemma sipsCallEv_cons_succ (env : Env) (inp : String) (a : Nat × String)
    (t : List (Nat × String)) (idx j : Nat) :
    sipsCallEv env inp (a :: t) idx (j + 1) = sipsCallEv env inp t (idx + 1) j := by
  unfold sipsCallEv
  rw [specAt_cons_succ, sipsArgsOut_cons_succ, show idx + (j + 1) = (idx + 1) + j by omega]

lemma sipsCallEv_cons_zero (env : Env) (inp : String) (a : Nat × String)
    (t : List (Nat × String)) (idx : Nat) :
    sipsCallEv env inp (a :: t) idx 0 =
      Event.runSips idx a.1 inp (joinPath iconset_name a.2)
        (env.sips idx a.1 inp (joinPath iconset_name a.2)) := by
  simp [sipsCallEv, specAt, sipsArgsOut]

lemma range_map_sipsCallEv_shift (env : Env) (inp : String) (a : Nat × String)
    (t : List (Nat × String)) (idx m : Nat) :
    (List.range (m + 1)).map (sipsCallEv env inp (a :: t) idx) =
      sipsCallEv env inp (a :: t) idx 0 ::
        (List.range m).map (sipsCallEv env inp t (idx + 1)) := by
  rw [List.range_succ_eq_map, List.map_cons, List.map_map]
  congr 1
  refine List.map_congr_left ?_
  intro j _
  exact sipsCallEv_cons_succ env inp a t idx j

lemma renderLoop_cons (env : Env) (inp : String) (idx : Nat) (a : Nat × String)
    (t : List (Nat × String)) :
    renderLoop env inp idx (a :: t) =
      if (env.sips idx a.1 inp (joinPath iconset_name a.2)).returncode ≠ 0 then
        ([Event.runSips idx a.1 inp (joinPath iconset_name a.2)
            (env.sips idx a.1 inp (joinPath iconset_name a.2)),
          Event.print ("❌ Failed to generate " ++ a.2 ++ ": " ++
            (env.sips idx a.1 inp (joinPath iconset_name a.2)).stderr),
          Event.rmtree iconset_name], false)
      else
        (Event.runSips idx a.1 inp (joinPath iconset_name a.2)
            (env.sips idx a.1 inp (joinPath iconset_name a.2)) ::
          (renderLoop env inp (idx + 1) t).1,
         (renderLoop env inp (idx + 1) t).2) := by
  obtain ⟨s, f⟩ := a
  rfl

lemma renderLoop_ok (env : Env) (inp : String) :
    ∀ (l : List (Nat × String)) (idx : Nat),
      (∀ j, j < l.length → callCode env inp l idx j = 0) →
      renderLoop env inp idx l =
        ((List.range l.length).map (sipsCallEv env inp l idx), true) := by
  intro l
  induction l with
  | nil => intro idx _; rfl
  | cons a t ih =>
    intro idx h
    have h0 : (env.sips idx a.1 inp (joinPath iconset_name a.2)).returncode = 0 := by
      have := h 0 (by simp)
      rwa [callCode_cons_zero] at this
    rw [renderLoop_cons, if_neg (by simp [h0])]
    have ht := ih (idx + 1) (fun j hj => by
      have := h (j + 1) (by simpa using Nat.succ_lt_succ hj)
      rwa [callCode_cons_succ] at this)
    rw [ht]
    simp only [List.length_cons, Prod.mk.injEq]
    refine ⟨?_, trivial⟩
    rw [range_map_sipsCallEv_shift, sipsCallEv_cons_zero]

lemma renderLoop_fail (env : Env) (inp : String) :
    ∀ (l : List (Nat × String)) (m idx : Nat),
      (∀ j, j < m → callCode env inp l idx j = 0) →
      m < l.length →
      callCode env inp l idx m ≠ 0 →
      renderLoop env inp idx l =
        ((List.range m).map (sipsCallEv env inp l idx) ++
          [sipsCallEv env inp l idx m,
           Event.print ("❌ Failed to generate " ++ (specAt l m).2 ++ ": " ++
             (env.sips (idx + m) (specAt l m).1 inp (sipsArgsOut l m)).stderr),
           Event.rmtree iconset_name], false) := by
  intro l
  induction l with
  | nil => intro m idx _ h2 _; simp at h2
  | cons a t ih =>
    intro m idx h1 h2 h3
    cases m with
    | zero =>
      have hne : (env.sips idx a.1 inp (joinPath iconset_name a.2)).returncode ≠ 0 := by
        rwa [callCode_cons_zero] at h3
      rw [renderLoop_cons, if_pos (by simp [hne])]
      simp only [List.range_zero, List.map_nil, List.nil_append, Prod.mk.injEq]
      refine ⟨?_, trivial⟩
      rw [sipsCallEv_cons_zero]
      simp [specAt, sipsArgsOut]
    | succ m' =>
      have h0 : (env.sips idx a.1 inp (joinPath iconset_name a.2)).returncode = 0 := by
        have := h1 0 (Nat.succ_pos _)
        rwa [callCode_cons_zero] at this
      rw [renderLoop_cons, if_neg (by simp [h0])]
      have ht := ih m' (idx + 1)
        (fun j hj => by
          have := h1 (j + 1) (Nat.succ_lt_succ hj)
          rwa [callCode_cons_succ] at this)
        (by simpa using Nat.lt_of_succ_lt_succ h2)
        (by rw [← callCode_cons_succ]; exact h3)
      rw [ht]
      simp only [Prod.mk.injEq]
      refine ⟨?_, trivial⟩
      rw [range_map_sipsCallEv_shift, sipsCallEv_cons_zero,
        sipsCallEv_cons_succ, specAt_cons_succ, sipsArgsOut_cons_succ,
        show idx + (m' + 1) = (idx + 1) + m' by omega]
      rfl

lemma renderLoop_true_iff (env : Env) (inp : String) :
    ∀ (l : List (Nat × String)) (idx : Nat),
      (renderLoop env inp idx l).2 = true ↔
        ∀ j, j < l.length → callCode env inp l idx j = 0 := by
  intro l
  induction l with
  | nil => intro idx; simp [renderLoop]
  | cons a t ih =>
    intro idx
    rw [renderLoop_cons]
    by_cases h0 : (env.sips idx a.1 inp (joinPath iconset_name a.2)).returncode = 0
    · rw [if_neg (by simp [h0])]
      simp only [List.length_cons]
      constructor
      · intro h j hj
        cases j with
        | zero => rwa [callCode_cons_zero]
        | succ j' =>
          rw [callCode_cons_succ]
          exact (ih (idx + 1)).mp h j' (Nat.lt_of_succ_lt_succ hj)
      · intro h
        apply (ih (idx + 1)).mpr
        intro j hj
        rw [← callCode_cons_succ]
        exact h (j + 1) (Nat.succ_lt_succ hj)
    · rw [if_pos (by simp [h0])]
      simp only [List.length_cons]
      constructor
      · intro h; exact absurd h (by simp)
      · intro h
        exact absurd (by rw [← callCode_cons_zero env inp a t idx]; exact h 0 (Nat.succ_pos _)) h0

lemma renderLoop_false_ends (env : Env) (inp : String) :
    ∀ (l : List (Nat × String)) (idx : Nat),
      (renderLoop env inp idx l).2 = false →
      ∃ pre, (renderLoop env inp idx l).1 = pre ++ [Event.rmtree iconset_name] := by
  intro l
  induction l with
  | nil => intro idx h; simp [renderLoop] at h
  | cons a t ih =>
    intro idx h
    rw [renderLoop_cons] at h ⊢
    by_cases h0 : (env.sips idx a.1 inp (joinPath iconset_name a.2)).returncode = 0
    · rw [if_neg (by simp [h0])] at h ⊢
      obtain ⟨pre, hp⟩ := ih (idx + 1) h
      exact ⟨Event.runSips idx a.1 inp (joinPath iconset_name a.2)
        (env.sips idx a.1 inp (joinPath iconset_name a.2)) :: pre, by simp [hp]⟩
    · rw [if_pos (by simp [h0])]
      exact ⟨[Event.runSips idx a.1 inp (joinPath iconset_name a.2)
          (env.sips idx a.1 inp (joinPath iconset_name a.2)),
        Event.print ("❌ Failed to generate " ++ a.2 ++ ": " ++
          (env.sips idx a.1 inp (joinPath iconset_name a.2)).stderr)], rfl⟩

lemma renderLoop_rmtree (env : Env) (inp : String) :
    ∀ (l : List (Nat × String)) (idx : Nat) (p : String),
      Event.rmtree p ∈ (renderLoop env inp idx l).1 → p = iconset_name := by
  intro l
  induction l with
  | nil => intro idx p h; simp [renderLoop] at h
  | cons a t ih =>
    intro idx p h
    rw [renderLoop_cons] at h
    by_cases h0 : (env.sips idx a.1 inp (joinPath iconset_name a.2)).returncode = 0
    · rw [if_neg (by simp [h0])] at h
      simp only [List.mem_cons] at h
      rcases h with h | h
      · simp at h
      · exact ih (idx + 1) p h
    · rw [if_pos (by simp [h0])] at h
      simpa using h

lemma renderLoop_writes (env : Env) (inp : String) :
    ∀ (l : List (Nat × String)) (idx : Nat) (e : Event) (o : String),
      e ∈ (renderLoop env inp idx l).1 → writeTarget e = some o →
      pathWithin iconset_name o = true := by
  intro l
  induction l with
  | nil => intro idx e o h _; simp [renderLoop] at h
  | cons a t ih =>
    intro idx e o h hw
    rw [renderLoop_cons] at h
    by_cases h0 : (env.sips idx a.1 inp (joinPath iconset_name a.2)).returncode = 0
    · rw [if_neg (by simp [h0])] at h
      simp only [List.mem_cons] at h
      rcases h with h | h
      · subst h
        simp only [writeTarget, if_pos h0, Option.some.injEq] at hw
        subst hw
        exact pathWithin_joinPath a.2
      · exact ih (idx + 1) e o h hw
    · rw [if_pos (by simp [h0])] at h
      simp only [List.mem_cons, List.not_mem_nil, or_false] at h
      rcases h with h | h | h
      · subst h; simp [writeTarget, h0] at hw
      · subst h; simp [writeTarget] at hw
      · subst h; simp [writeTarget] at hw

lemma renderLoop_no_iconutil (env : Env) (inp : String) :
    ∀ (l : List (Nat × String)) (idx : Nat) (a o : String) (r : ProcResult),
      Event.runIconutil a o r ∉ (renderLoop env inp idx l).1 := by
  intro l
  induction l with
  | nil => intro idx a o r h; simp [renderLoop] at h
  | cons hd t ih =>
    intro idx a o r h
    rw [renderLoop_cons] at h
    by_cases h0 : (env.sips idx hd.1 inp (joinPath iconset_name hd.2)).returncode = 0
    · rw [if_neg (by simp [h0])] at h
      simp only [List.mem_cons] at h
      rcases h with h | h
      · simp at h
      · exact ih (idx + 1) a o r h
    · rw [if_pos (by simp [h0])] at h
      simp at h

-- Helper lemmas about the shape of the builder trace.

lemma rmtree_mem_ite {p : String} {c : Prop} [Decidable c]
    (h : Event.rmtree p ∈ (if c then [Event.rmtree iconset_name] else [])) :
    p = iconset_name := by
  split at h
  · simpa using h
  · simp at h

lemma fileExists_final_rmtree (fs : FSState) (a post : List Event) (q : String)
    (hq : pathWithin iconset_name q = true)
    (hpost : ∀ e ∈ post, ∃ m, e = Event.print m) :
    (applyTrace fs (a ++ Event.rmtree iconset_name :: post)).fileExists q = false := by
  rw [applyTrace_append]
  simp only [applyTrace]
  rw [applyTrace_prints _ post hpost]
  simp [applyEvent, hq]

lemma generate_icon_trace_shape (fs0 : FSState) (env : Env) (inp out : String) :
    ∃ a post, (generate_icon fs0 env inp out).1 = a ++ Event.rmtree iconset_name :: post ∧
      ∀ e ∈ post, ∃ m, e = Event.print m := by
  by_cases hlr : (renderLoop env inp 0 icon_sizes).2 = false
  · obtain ⟨pre, hp⟩ := renderLoop_false_ends env inp icon_sizes 0 hlr
    refine ⟨Event.mkdirParents (parentDir out) ::
      ((if pathExists (applyEvent fs0 (Event.mkdirParents (parentDir out))) iconset_name
          then [Event.rmtree iconset_name] else []) ++
        [Event.makedirs iconset_name,
         Event.print "🎨 Generating app icon...",
         Event.print ("📥 Input image: " ++ inp),
         Event.print "📐 Generating icon sizes..."] ++ pre), [], ?_, by simp⟩
    simp [generate_icon, hlr, hp]
  · by_cases hrc : (env.iconutil iconset_name out).returncode = 0
    · refine ⟨Event.mkdirParents (parentDir out) ::
        ((if pathExists (applyEvent fs0 (Event.mkdirParents (parentDir out))) iconset_name
            then [Event.rmtree iconset_name] else []) ++
          [Event.makedirs iconset_name,
           Event.print "🎨 Generating app icon...",
           Event.print ("📥 Input image: " ++ inp),
           Event.print "📐 Generating icon sizes..."] ++
          (renderLoop env inp 0 icon_sizes).1 ++
          [Event.print "✅ Generated all icon sizes",
           Event.print "🔨 Generating .icns file...",
           Event.runIconutil iconset_name out (env.iconutil iconset_name out)]),
        [Event.print "✅ Icon generated successfully!",
         Event.print ("📦 Output file: " ++ out)], ?_, by simp⟩
      simp [generate_icon, hlr, hrc]
    · refine ⟨Event.mkdirParents (parentDir out) ::
        ((if pathExists (applyEvent fs0 (Event.mkdirParents (parentDir out))) iconset_name
            then [Event.rmtree iconset_name] else []) ++
          [Event.makedirs iconset_name,
           Event.print "🎨 Generating app icon...",
           Event.print ("📥 Input image: " ++ inp),
           Event.print "📐 Generating icon sizes..."] ++
          (renderLoop env inp 0 icon_sizes).1 ++
          [Event.print "✅ Generated all icon sizes",
           Event.print "🔨 Generating .icns file...",
           Event.runIconutil iconset_name out (env.iconutil iconset_name out)]),
        [Event.print ("❌ Icon generation failed: " ++ (env.iconutil iconset_name out).stderr)],
        ?_, by simp⟩
      simp [generate_icon, hlr, hrc]

lemma generate_icon_head (fs0 : FSState) (env : Env) (inp out : String) :
    ∃ rest, (generate_icon fs0 env inp out).1 =
      Event.mkdirParents (parentDir out) :: rest := by
  simp only [generate_icon]
  split
  · exact ⟨_, rfl⟩
  · split
    · exact ⟨_, rfl⟩
    · exact ⟨_, rfl⟩

lemma generate_icon_rmtree (fs0 : FSState) (env : Env) (inp out p : String) :
    Event.rmtree p ∈ (generate_icon fs0 env inp out).1 → p = iconset_name := by
  intro h
  have hrl : Event.rmtree p ∈ (renderLoop env inp 0 icon_sizes).1 → p = iconset_name :=
    renderLoop_rmtree env inp icon_sizes 0 p
  by_cases hlr : (renderLoop env inp 0 icon_sizes).2 = false
  · simp only [generate_icon] at h
    rw [if_pos hlr] at h
    simp [List.mem_ite_nil_right] at h
    rcases h with h | h
    · exact h.2
    · exact hrl h
  · simp only [generate_icon] at h
    rw [if_neg hlr] at h
    split at h <;>
    · simp [List.mem_ite_nil_right] at h
      rcases h with h | h | h
      · exact h.2
      · exact hrl h
      · exact h

lemma generate_icon_result_iff (fs0 : FSState) (env : Env) (inp out : String) :
    (generate_icon fs0 env inp out).2 = true ↔
      (∀ k, k < 10 → sipsCode env inp k = 0) ∧ compileCode env out = 0 := by
  have hlen : icon_sizes.length = 10 := rfl
  by_cases hl : (renderLoop env inp 0 icon_sizes).2 = true
  · have hnf : ¬ ((renderLoop env inp 0 icon_sizes).2 = false) := by simp [hl]
    have hcodes : ∀ k, k < 10 → sipsCode env inp k = 0 := by
      have hall := (renderLoop_true_iff env inp icon_sizes 0).mp hl
      intro k hk
      exact hall k (by rw [hlen]; exact hk)
    by_cases hrc : (env.iconutil iconset_name out).returncode = 0
    · have hv : (generate_icon fs0 env inp out).2 = true := by
        simp [generate_icon, hnf, hrc]
      rw [hv]
      exact iff_of_true rfl ⟨hcodes, hrc⟩
    · have hv : (generate_icon fs0 env inp out).2 = false := by
        simp [generate_icon, hnf, hrc]
      rw [hv]
      constructor
      · intro hcontra; exact Bool.noConfusion hcontra
      · rintro ⟨_, hc0⟩; exact absurd hc0 hrc
  · have hfalse : (renderLoop env inp 0 icon_sizes).2 = false := by
      cases hflag : (renderLoop env inp 0 icon_sizes).2
      · rfl
      · exact absurd hflag hl
    have hv : (generate_icon fs0 env inp out).2 = false := by
      simp [generate_icon, hfalse]
    rw [hv]
    constructor
    · intro hcontra; exact Bool.noConfusion hcontra
    · rintro ⟨hc, _⟩
      exfalso
      apply hl
      apply (renderLoop_true_iff env inp icon_sizes 0).mpr
      intro j hj
      exact hc j (by rw [hlen] at hj; exact hj)

-- Claim theorems.

/-- C1: the transient working directory is removed before the builder
returns on every exit path — the rendition-failure path, the
compile-failure path and the success path all leave the filesystem with no
working directory of the fixed name. -/
theorem c1_workdir_always_removed (fs0 : FSState) (env : Env) (inp out : String) :
    (applyTrace fs0 (generate_icon fs0 env inp out).1).dirExists iconset_name = false := by
  obtain ⟨a, post, htr, hpost⟩ := generate_icon_trace_shape fs0 env inp out
  rw [htr]
  exact dirExists_final_rmtree fs0 a post hpost

/-- C3: the fixed ordered table has exactly ten entries whose pixel
dimensions, in order, are 16, 32, 32, 64, 128, 256, 256, 512, 512, 1024,
whose filenames are the ten listed names, and each filename encodes the
nominal size `n` as `icon_nxn.png` (dimension `n`) or `icon_nxn@2x.png`
(dimension `2n`). -/
theorem c3_size_table :
    icon_sizes.length = 10 ∧
    icon_sizes.map Prod.fst = [16, 32, 32, 64, 128, 256, 256, 512, 512, 1024] ∧
    icon_sizes.map Prod.snd =
      ["icon_16x16.png", "icon_16x16@2x.png", "icon_32x32.png", "icon_32x32@2x.png",
       "icon_128x128.png", "icon_128x128@2x.png", "icon_256x256.png", "icon_256x256@2x.png",
       "icon_512x512.png", "icon_512x512@2x.png"] ∧
    ∀ p ∈ icon_sizes, ∃ n : Nat,
      (p.2 = "icon_" ++ toString n ++ "x" ++ toString n ++ ".png" ∧ p.1 = n) ∨
      (p.2 = "icon_" ++ toString n ++ "x" ++ toString n ++ "@2x.png" ∧ p.1 = 2 * n) := by
  refine ⟨rfl, rfl, rfl, ?_⟩
  intro p hp
  simp only [icon_sizes, List.mem_cons, List.not_mem_nil, or_false] at hp
  rcases hp with h|h|h|h|h|h|h|h|h|h <;> subst h
  · exact ⟨16, Or.inl ⟨by decide, rfl⟩⟩
  · exact ⟨16, Or.inr ⟨by decide, rfl⟩⟩
  · exact ⟨32, Or.inl ⟨by decide, rfl⟩⟩
  · exact ⟨32, Or.inr ⟨by decide, rfl⟩⟩
  · exact ⟨128, Or.inl ⟨by decide, rfl⟩⟩
  · exact ⟨128, Or.inr ⟨by decide, rfl⟩⟩
  · exact ⟨256, Or.inl ⟨by decide, rfl⟩⟩
  · exact ⟨256, Or.inr ⟨by decide, rfl⟩⟩
  · exact ⟨512, Or.inl ⟨by decide, rfl⟩⟩
  · exact ⟨512, Or.inr ⟨by decide, rfl⟩⟩

/-- C3 witness: the table's first entry instantiates the encoding clause. -/
theorem c3_size_table_witness :
    (16, "icon_16x16.png") ∈ icon_sizes ∧
    ∃ n : Nat,
      (((16 : Nat), "icon_16x16.png").2 = "icon_" ++ toString n ++ "x" ++ toString n ++ ".png" ∧
        ((16 : Nat), "icon_16x16.png").1 = n) ∨
      (((16 : Nat), "icon_16x16.png").2 = "icon_" ++ toString n ++ "x" ++ toString n ++ "@2x.png" ∧
        ((16 : Nat), "icon_16x16.png").1 = 2 * n) :=
  ⟨by decide, c3_size_table.2.2.2 (16, "icon_16x16.png") (by decide)⟩

/-- C7: the builder begins by creating the output parent directory, then
removing any pre-existing working directory, then creating the working
directory fresh, in that order and before any external-utility
invocation appears in the trace. -/
theorem c7_init_order (fs0 : FSState) (env : Env) (inp out : String) :
    ∃ rest, (generate_icon fs0 env inp out).1 =
      Event.mkdirParents (parentDir out) ::
        ((if pathExists (applyEvent fs0 (Event.mkdirParents (parentDir out))) iconset_name
            then [Event.rmtree iconset_name] else []) ++
          Event.makedirs iconset_name :: rest) := by
  by_cases hlr : (renderLoop env inp 0 icon_sizes).2 = false
  · refine ⟨[Event.print "🎨 Generating app icon...",
      Event.print ("📥 Input image: " ++ inp),
      Event.print "📐 Generating icon sizes..."] ++ (renderLoop env inp 0 icon_sizes).1, ?_⟩
    simp [generate_icon, hlr]
  · by_cases hrc : (env.iconutil iconset_name out).returncode = 0
    · refine ⟨[Event.print "🎨 Generating app icon...",
        Event.print ("📥 Input image: " ++ inp),
        Event.print "📐 Generating icon sizes..."] ++
        ((renderLoop env inp 0 icon_sizes).1 ++
          [Event.print "✅ Generated all icon sizes",
           Event.print "🔨 Generating .icns file...",
           Event.runIconutil iconset_name out (env.iconutil iconset_name out),
           Event.rmtree iconset_name,
           Event.print "✅ Icon generated successfully!",
           Event.print ("📦 Output file: " ++ out)]), ?_⟩
      simp [generate_icon, hlr, hrc]
    · refine ⟨[Event.print "🎨 Generating app icon...",
        Event.print ("📥 Input image: " ++ inp),
        Event.print "📐 Generating icon sizes..."] ++
        ((renderLoop env inp 0 icon_sizes).1 ++
          [Event.print "✅ Generated all icon sizes",
           Event.print "🔨 Generating .icns file...",
           Event.runIconutil iconset_name out (env.iconutil iconset_name out),
           Event.rmtree iconset_name,
           Event.print ("❌ Icon generation failed: " ++ (env.iconutil iconset_name out).stderr)]),
        ?_⟩
      simp [generate_icon, hlr, hrc]

/-- C9: the ten filenames of the table are pairwise distinct, the ten
output paths handed to the scaling utility are therefore pairwise distinct,
and each of them lies inside the working directory. -/
theorem c9_distinct_rendition_files :
    (icon_sizes.map Prod.snd).Nodup ∧
    (icon_sizes.map (fun p => joinPath iconset_name p.2)).Nodup ∧
    ∀ p ∈ icon_sizes, pathWithin iconset_name (joinPath iconset_name p.2) = true := by
  refine ⟨by decide, by decide, ?_⟩
  intro p _
  exact pathWithin_joinPath p.2

/-- C9 witness: the first table entry's output path lies inside the
working directory. -/
theorem c9_distinct_rendition_files_witness :
    (16, "icon_16x16.png") ∈ icon_sizes ∧
    pathWithin iconset_name (joinPath iconset_name ((16, "icon_16x16.png") : Nat × String).2) = true :=
  ⟨by decide, c9_distinct_rendition_files.2.2 (16, "icon_16x16.png") (by decide)⟩

/-- C10 counterexample: for the output path `VeloxClip.iconset/AppIcon.icns`,
whose parent directory is the working directory itself, a run in which the
input file exists and every utility succeeds ends with the output parent
directory removed — the claim's universally quantified persistence fails. -/
theorem c10_counterexample :
    fsWithInput.fileExists "in.png" = true ∧
    parentDir "VeloxClip.iconset/AppIcon.icns" = iconset_name ∧
    (applyTrace fsWithInput
        (generate_icon fsWithInput envAllOk "in.png" "VeloxClip.iconset/AppIcon.icns").1).dirExists
      (parentDir "VeloxClip.iconset/AppIcon.icns") = false := by
  refine ⟨by decide, by decide, by decide⟩

/-- C10 (amended): the builder's trace starts by creating the output parent
directory, and whenever the parent directory of the output path is not the
working directory nor a path inside it, that directory still exists after
any run — including runs that end in rendition or compile failure. -/
theorem c10_parent_dir_persists (fs0 : FSState) (env : Env) (inp out : String)
    (h : pathWithin iconset_name (parentDir out) = false) :
    (applyTrace fs0 (generate_icon fs0 env inp out).1).dirExists (parentDir out) = true ∧
    ∃ rest, (generate_icon fs0 env inp out).1 =
      Event.mkdirParents (parentDir out) :: rest := by
  obtain ⟨rest, hrest⟩ := generate_icon_head fs0 env inp out
  refine ⟨?_, rest, hrest⟩
  rw [hrest]
  simp only [applyTrace]
  apply applyTrace_dir_true
  · simp [applyEvent, isAncestorOrSelf_self]
  · intro p hp
    have hpi : p = iconset_name := by
      apply generate_icon_rmtree fs0 env inp out p
      rw [hrest]
      exact List.mem_cons_of_mem _ hp
    rw [hpi]
    exact h

/-- C10 witness: for the ordinary output path `o/a.icns` the parent
directory `o` survives the run. -/
theorem c10_parent_dir_persists_witness :
    pathWithin iconset_name (parentDir "o/a.icns") = false ∧
    (applyTrace fsEmpty
        (generate_icon fsEmpty envCompileFail "in.png" "o/a.icns").1).dirExists
      (parentDir "o/a.icns") = true :=
  ⟨by decide,
    (c10_parent_dir_persists fsEmpty envCompileFail "in.png" "o/a.icns" (by decide)).1⟩

/-- C2: if the scaling utility succeeds on the first k SizeSpecs and
returns non-zero on the k-th, the builder invokes no scaling call past
index k, never invokes the compiler, returns failure, removes the working
directory, writes no output file at the output path, and prints an error
naming the failed file together with the utility's stderr. -/
theorem c2_rendition_failfast (fs0 : FSState) (env : Env) (inp out : String) (k : Nat)
    (hk : k < 10)
    (hpre : ∀ j, j < k → sipsCode env inp j = 0)
    (hfail : sipsCode env inp k ≠ 0) :
    (∀ i s a o r, Event.runSips i s a o r ∈ (generate_icon fs0 env inp out).1 → i ≤ k) ∧
    (∀ a o r, Event.runIconutil a o r ∉ (generate_icon fs0 env inp out).1) ∧
    (generate_icon fs0 env inp out).2 = false ∧
    (applyTrace fs0 (generate_icon fs0 env inp out).1).dirExists iconset_name = false ∧
    ((applyTrace fs0 (generate_icon fs0 env inp out).1).fileExists out = true →
      fs0.fileExists out = true) ∧
    Event.print ("❌ Failed to generate " ++ (specAt icon_sizes k).2 ++ ": " ++
        (env.sips k (specAt icon_sizes k).1 inp (sipsArgsOut icon_sizes k)).stderr) ∈
      (generate_icon fs0 env inp out).1 := by
  have hlen : icon_sizes.length = 10 := rfl
  have hloop := renderLoop_fail env inp icon_sizes k 0 hpre (by rw [hlen]; exact hk) hfail
  simp only [Nat.zero_add] at hloop
  have hres : generate_icon fs0 env inp out =
      (Event.mkdirParents (parentDir out) ::
        ((if pathExists (applyEvent fs0 (Event.mkdirParents (parentDir out))) iconset_name
            then [Event.rmtree iconset_name] else []) ++
          [Event.makedirs iconset_name,
           Event.print "🎨 Generating app icon...",
           Event.print ("📥 Input image: " ++ inp),
           Event.print "📐 Generating icon sizes..."] ++
          ((List.range k).map (sipsCallEv env inp icon_sizes 0) ++
            [sipsCallEv env inp icon_sizes 0 k,
             Event.print ("❌ Failed to generate " ++ (specAt icon_sizes k).2 ++ ": " ++
               (env.sips k (specAt icon_sizes k).1 inp (sipsArgsOut icon_sizes k)).stderr),
             Event.rmtree iconset_name])), false) := by
    simp [generate_icon, hloop]
  have hcases : ∀ e ∈ (generate_icon fs0 env inp out).1,
      e = Event.mkdirParents (parentDir out) ∨
      e = Event.rmtree iconset_name ∨
      e = Event.makedirs iconset_name ∨
      (∃ m, e = Event.print m) ∨
      (∃ j, j ≤ k ∧ e = sipsCallEv env inp icon_sizes 0 j) := by
    intro e he
    rw [hres] at he
    simp only [List.mem_cons, List.mem_append, List.mem_ite_nil_right,
      List.not_mem_nil, or_false, List.mem_map, List.mem_range] at he
    rcases he with he | (⟨_, he⟩ | he | he | he | he) | (⟨j, hj, he⟩ | he | he | he)
    · exact Or.inl he
    · exact Or.inr (Or.inl he)
    · exact Or.inr (Or.inr (Or.inl he))
    · exact Or.inr (Or.inr (Or.inr (Or.inl ⟨_, he⟩)))
    · exact Or.inr (Or.inr (Or.inr (Or.inl ⟨_, he⟩)))
    · exact Or.inr (Or.inr (Or.inr (Or.inl ⟨_, he⟩)))
    · exact Or.inr (Or.inr (Or.inr (Or.inr ⟨j, Nat.le_of_lt hj, he.symm⟩)))
    · exact Or.inr (Or.inr (Or.inr (Or.inr ⟨k, Nat.le_refl k, he⟩)))
    · exact Or.inr (Or.inr (Or.inr (Or.inl ⟨_, he⟩)))
    · exact Or.inr (Or.inl he)
  refine ⟨?_, ?_, ?_, ?_, ?_, ?_⟩
  · intro i s a o r hmem
    rcases hcases _ hmem with h | h | h | ⟨m, h⟩ | ⟨j, hj, h⟩
    · exact absurd h (by simp)
    · exact absurd h (by simp)
    · exact absurd h (by simp)
    · exact absurd h (by simp)
    · simp only [sipsCallEv, Event.runSips.injEq] at h
      obtain ⟨hi, -⟩ := h
      omega
  · intro a o r hmem
    rcases hcases _ hmem with h | h | h | ⟨m, h⟩ | ⟨j, hj, h⟩
    · exact absurd h (by simp)
    · exact absurd h (by simp)
    · exact absurd h (by simp)
    · exact absurd h (by simp)
    · simp [sipsCallEv] at h
  · simp [hres]
  · obtain ⟨a, post, htr, hpost⟩ := generate_icon_trace_shape fs0 env inp out
    rw [htr]
    exact dirExists_final_rmtree fs0 a post hpost
  · intro hfin
    by_cases hwout : pathWithin iconset_name out = true
    · exfalso
      obtain ⟨a, post, htr, hpost⟩ := generate_icon_trace_shape fs0 env inp out
      rw [htr, fileExists_final_rmtree fs0 a post out hwout hpost] at hfin
      exact Bool.noConfusion hfin
    · have hwout' : pathWithin iconset_name out = false := by
        cases hx : pathWithin iconset_name out
        · rfl
        · exact absurd hx hwout
      rw [applyTrace_file_eq out (generate_icon fs0 env inp out).1 fs0 ?_ ?_] at hfin
      · exact hfin
      · intro p hp
        rw [generate_icon_rmtree fs0 env inp out p hp]
        exact hwout'
      · intro e he o' hw
        rcases hcases e he with h | h | h | ⟨m, h⟩ | ⟨j, hj, h⟩ <;> subst h
        · simp [writeTarget] at hw
        · simp [writeTarget] at hw
        · simp [writeTarget] at hw
        · simp [writeTarget] at hw
        · simp only [sipsCallEv, writeTarget] at hw
          split at hw
          · rw [Option.some.injEq] at hw
            intro heq
            have hin : pathWithin iconset_name o' = true := by
              rw [← hw]
              exact pathWithin_joinPath _
            rw [heq, hwout'] at hin
            exact Bool.noConfusion hin
          · exact Option.noConfusion hw
  · simp [hres]

/-- C2 witness: with the scaling utility failing on call 3 and succeeding
before it, the builder returns failure. -/
theorem c2_rendition_failfast_witness :
    ((3 : Nat) < 10 ∧ (∀ j, j < 3 → sipsCode (envFailAt 3) "in.png" j = 0) ∧
      sipsCode (envFailAt 3) "in.png" 3 ≠ 0) ∧
    (generate_icon fsEmpty (envFailAt 3) "in.png" "o/a.icns").2 = false := by
  have h1 : (3 : Nat) < 10 := by decide
  have h2 : ∀ j, j < 3 → sipsCode (envFailAt 3) "in.png" j = 0 := by decide
  have h3 : sipsCode (envFailAt 3) "in.png" 3 ≠ 0 := by decide
  exact ⟨⟨h1, h2, h3⟩,
    (c2_rendition_failfast fsEmpty (envFailAt 3) "in.png" "o/a.icns" 3 h1 h2 h3).2.2.1⟩

/-- C4: when all ten renditions succeed the compiler is invoked; if it
reports non-zero the builder prints its stderr and returns failure,
otherwise it prints the success messages naming the output path and
returns success. -/
theorem c4_compile_outcome (fs0 : FSState) (env : Env) (inp out : String)
    (hall : ∀ k, k < 10 → sipsCode env inp k = 0) :
    Event.runIconutil iconset_name out (env.iconutil iconset_name out) ∈
      (generate_icon fs0 env inp out).1 ∧
    ((env.iconutil iconset_name out).returncode ≠ 0 →
      (generate_icon fs0 env inp out).2 = false ∧
      Event.print ("❌ Icon generation failed: " ++ (env.iconutil iconset_name out).stderr) ∈
        (generate_icon fs0 env inp out).1) ∧
    ((env.iconutil iconset_name out).returncode = 0 →
      (generate_icon fs0 env inp out).2 = true ∧
      Event.print "✅ Icon generated successfully!" ∈ (generate_icon fs0 env inp out).1 ∧
      Event.print ("📦 Output file: " ++ out) ∈ (generate_icon fs0 env inp out).1) := by
  have hlen : icon_sizes.length = 10 := rfl
  have hloop := renderLoop_ok env inp icon_sizes 0 (fun j hj => hall j (by rw [hlen] at hj; exact hj))
  have hnf : ¬ ((renderLoop env inp 0 icon_sizes).2 = false) := by rw [hloop]; simp
  by_cases hrc : (env.iconutil iconset_name out).returncode = 0
  · refine ⟨?_, fun hcontra => absurd hrc hcontra, fun _ => ⟨?_, ?_, ?_⟩⟩
    · simp [generate_icon, hnf, hrc]
    · simp [generate_icon, hnf, hrc]
    · simp [generate_icon, hnf, hrc]
    · simp [generate_icon, hnf, hrc]
  · refine ⟨?_, fun _ => ⟨?_, ?_⟩, fun hc => absurd hc hrc⟩
    · simp [generate_icon, hnf, hrc]
    · simp [generate_icon, hnf, hrc]
    · simp [generate_icon, hnf, hrc]

/-- C4 witness: with every utility succeeding, the builder returns success. -/
theorem c4_compile_outcome_witness :
    (∀ k, k < 10 → sipsCode envAllOk "in.png" k = 0) ∧
    (generate_icon fsEmpty envAllOk "in.png" "o/a.icns").2 = true := by
  have h : ∀ k, k < 10 → sipsCode envAllOk "in.png" k = 0 := by decide
  exact ⟨h, ((c4_compile_outcome fsEmpty envAllOk "in.png" "o/a.icns" h).2.2 (by decide)).1⟩

/-- C5: the CLI prints usage and example and exits 1 when no input argument
is given; prints an error and exits 1 when the input path does not exist;
prints the tip and exits 0 on a successful build; exits 1 on a failed
build. -/
theorem c5_cli_contract (fs0 : FSState) (env : Env) (argv : List String) :
    (argv.length < 2 →
      main_entry fs0 env argv =
        ([Event.print "Usage: python3 generate_icon.py <image_path>",
          Event.print "Example: python3 generate_icon.py icon.png"], 1)) ∧
    (2 ≤ argv.length → pathExists fs0 (argv.getD 1 "") = false →
      main_entry fs0 env argv =
        ([Event.print ("❌ Error: File not found \x27" ++ argv.getD 1 "" ++ "\x27")], 1)) ∧
    (2 ≤ argv.length → pathExists fs0 (argv.getD 1 "") = true →
      (generate_icon fs0 env (argv.getD 1 "") output_icns_default).2 = true →
      (main_entry fs0 env argv).2 = 0 ∧
      Event.print "\n💡 Tip: Icon has been generated, you can now run build_app.sh to build the app" ∈
        (main_entry fs0 env argv).1) ∧
    (2 ≤ argv.length → pathExists fs0 (argv.getD 1 "") = true →
      (generate_icon fs0 env (argv.getD 1 "") output_icns_default).2 = false →
      (main_entry fs0 env argv).2 = 1) := by
  refine ⟨?_, ?_, ?_, ?_⟩
  · intro h
    simp [main_entry, h]
  · intro h hne
    have h2 : ¬ argv.length < 2 := by omega
    simp only [List.getD_eq_getElem?_getD] at hne
    simp [main_entry, h2, hne]
  · intro h hex hgen
    have h2 : ¬ argv.length < 2 := by omega
    simp only [List.getD_eq_getElem?_getD] at hex hgen
    constructor
    · simp [main_entry, h2, hex, hgen]
    · simp [main_entry, h2, hex, hgen]
  · intro h hex hgen
    have h2 : ¬ argv.length < 2 := by omega
    simp only [List.getD_eq_getElem?_getD] at hex hgen
    simp [main_entry, h2, hex, hgen]

/-- C5 witness: invoked with no input argument, the CLI prints usage and
example and exits with code 1. -/
theorem c5_cli_contract_witness :
    (["prog"] : List String).length < 2 ∧
    main_entry fsEmpty envAllOk ["prog"] =
      ([Event.print "Usage: python3 generate_icon.py <image_path>",
        Event.print "Example: python3 generate_icon.py icon.png"], 1) :=
  ⟨by decide, (c5_cli_contract fsEmpty envAllOk ["prog"]).1 (by decide)⟩

/-- C6: when the input path names no existing file the CLI run consists of
exactly the error print and exit code 1, and the filesystem after the run
equals the initial filesystem — no directory is created, nothing is
written. -/
theorem c6_missing_input_no_mutation (fs0 : FSState) (env : Env)
    (arg0 inp : String) (rest : List String)
    (h : pathExists fs0 inp = false) :
    main_entry fs0 env (arg0 :: inp :: rest) =
      ([Event.print ("❌ Error: File not found \x27" ++ inp ++ "\x27")], 1) ∧
    applyTrace fs0 (main_entry fs0 env (arg0 :: inp :: rest)).1 = fs0 := by
  have hme : main_entry fs0 env (arg0 :: inp :: rest) =
      ([Event.print ("❌ Error: File not found \x27" ++ inp ++ "\x27")], 1) := by
    have h2 : ¬ (arg0 :: inp :: rest).length < 2 := by simp
    simp [main_entry, h2, h]
  exact ⟨hme, by rw [hme]; rfl⟩

/-- C6 witness: a run on the missing path `nope.png` over the empty
filesystem prints exactly the error and exits 1. -/
theorem c6_missing_input_no_mutation_witness :
    pathExists fsEmpty "nope.png" = false ∧
    main_entry fsEmpty envAllOk ["prog", "nope.png"] =
      ([Event.print ("❌ Error: File not found \x27" ++ "nope.png" ++ "\x27")], 1) :=
  ⟨by decide,
    (c6_missing_input_no_mutation fsEmpty envAllOk "prog" "nope.png" [] (by decide)).1⟩

/-- C8: the builder succeeds exactly when the ten scaling exit statuses and
the compile exit status are all zero, and the returned boolean depends only
on those eleven statuses — not on the filesystem, the input path, the
output path or the diagnostic text. -/
theorem c8_result_depends_only_on_codes (fs0 : FSState) (env : Env) (inp out : String) :
    ((generate_icon fs0 env inp out).2 = true ↔
      (∀ k, k < 10 → sipsCode env inp k = 0) ∧ compileCode env out = 0) ∧
    (∀ (fs0' : FSState) (env' : Env) (inp' out' : String),
      (∀ k, k < 10 → sipsCode env' inp' k = sipsCode env inp k) →
      compileCode env' out' = compileCode env out →
      (generate_icon fs0' env' inp' out').2 = (generate_icon fs0 env inp out).2) := by
  refine ⟨generate_icon_result_iff fs0 env inp out, ?_⟩
  intro fs0' env' inp' out' h1 h2
  have ha := generate_icon_result_iff fs0 env inp out
  have hb := generate_icon_result_iff fs0' env' inp' out'
  by_cases h : (generate_icon fs0 env inp out).2 = true
  · rw [h]
    apply hb.mpr
    obtain ⟨hc, hd⟩ := ha.mp h
    exact ⟨fun k hk => by rw [h1 k hk]; exact hc k hk, by rw [h2]; exact hd⟩
  · have hfa : (generate_icon fs0 env inp out).2 = false := by
      cases hx : (generate_icon fs0 env inp out).2
      · rfl
      · exact absurd hx h
    rw [hfa]
    cases hy : (generate_icon fs0' env' inp' out').2
    · rfl
    · exfalso
      apply h
      apply ha.mpr
      obtain ⟨hc, hd⟩ := hb.mp hy
      exact ⟨fun k hk => by rw [← h1 k hk]; exact hc k hk, by rw [← h2]; exact hd⟩

/-- C8 witness: with all eleven exit statuses zero the builder returns
success. -/
theorem c8_result_depends_only_on_codes_witness :
    (generate_icon fsEmpty envAllOk "in.png" "o/a.icns").2 = true := by
  apply (c8_result_depends_only_on_codes fsEmpty envAllOk "in.png" "o/a.icns").1.mpr
  exact ⟨by decide, by decide⟩
